import Mathlib

/-!
Shallow embedding of the data-preparation and metrics pipeline of the
Air_Traffic_1990_2024 dashboard (files src/utils/metrics.py and
src/utils/prep.py), together with theorems settling the frozen claims.

Modelling conventions:
* a numeric cell (a float that may be NaN) is an Option Rat, with none
  standing for NaN / missing;
* pandas sums and means skip missing values (skipna), which nsum / qmean
  implement;
* pandas groupby with its default sort=True produces rows keyed by the
  sorted distinct keys; sorts are modelled by the stable insertionSort;
* a DataFrame is modelled per function family as a structure holding the
  rows (records of the cells the function reads) plus Bool flags recording
  which optional columns are present in the frame;
* a Python function that can raise is embedded with an Except String
  result; a scalar float result that can be NaN is an Option Rat.
-/

/-- Float addition of two cells: NaN propagates through addition. -/
def optAdd (a b : Option ℚ) : Option ℚ :=
  match a, b with
  | some x, some y => some (x + y)
  | _, _ => none

/-- Pandas Series.sum with skipna=True: missing cells are skipped and the
sum of an all-missing or empty series is 0. -/
def nsum (l : List (Option ℚ)) : ℚ :=
  (l.filterMap id).sum

/-- Pandas Series.mean with skipna=True: the mean of the present cells,
NaN (none) when no cell is present. -/
def qmean (l : List (Option ℚ)) : Option ℚ :=
  let xs := l.filterMap id
  if xs.isEmpty then none else some (xs.sum / xs.length)

/-- Pandas groupby(key, sort=True) followed by sum() on one value column:
one row per distinct key, keys sorted by the given order, each paired with
the skipna sum of its group. -/
def groupSum {κ : Type} [DecidableEq κ] (le : κ → κ → Prop) [DecidableRel le]
    (l : List (κ × Option ℚ)) : List (κ × ℚ) :=
  (List.insertionSort le (l.map Prod.fst).dedup).map
    (fun k => (k, nsum ((l.filter (fun p => p.1 = k)).map Prod.snd)))

/-- Pandas groupby(key, sort=True) followed by mean() on one value column. -/
def groupMean {κ : Type} [DecidableEq κ] (le : κ → κ → Prop) [DecidableRel le]
    (l : List (κ × Option ℚ)) : List (κ × Option ℚ) :=
  (List.insertionSort le (l.map Prod.fst).dedup).map
    (fun k => (k, qmean ((l.filter (fun p => p.1 = k)).map Prod.snd)))

/-- Reindex-style lookup into a grouped table, with fillna(0): the sum
stored for the key, 0 when the key is absent. -/
def qlookup {κ : Type} [DecidableEq κ] (l : List (κ × ℚ)) (k : κ) : ℚ :=
  ((l.find? (fun p => p.1 = k)).map Prod.snd).getD 0

/-- Lexicographic order on the two-string group keys used by the KPI
group-by operations (pandas sorts a two-level key lexicographically). -/
def pairLe (a b : String × String) : Prop :=
  a.1 < b.1 ∨ (a.1 = b.1 ∧ a.2 ≤ b.2)

instance : DecidableRel pairLe := fun a b => by
  unfold pairLe; infer_instance

/-!  ## src/utils/metrics.py : yearly totals, cagr, recovery  -/

/-- One row as read by the yearly-total functions: the year cell, the year
that the date cell would yield, and the selected value column cell. -/
structure MRow where
  year : Int
  dateYear : Int
  value : Option ℚ
  deriving DecidableEq

/-- A frame passed to the yearly-total functions: the rows plus whether the
frame has a year column and/or a date column. -/
structure MTable where
  hasYear : Bool
  hasDate : Bool
  rows : List MRow
  deriving DecidableEq

/-- The year used to group a row: the year column when present, otherwise
the year derived from the date column. -/
def rowYear (t : MTable) (r : MRow) : Int :=
  if t.hasYear then r.year else r.dateYear

/-- Message of the ValueError raised by the source function _yearly_sum
(the source text quotes the column names year and date). -/
def yearlySumErr : String := "Need year or date column for yearly sums."

/-- Embedding of _yearly_sum (src/utils/metrics.py lines 15-23): group by
year (derived from the date column when the year column is absent) and sum
the value column; raises ValueError when neither column exists. -/
def yearly_sum (t : MTable) : Except String (List (Int × ℚ)) :=
  if t.hasYear = false ∧ t.hasDate = false then
    .error yearlySumErr
  else
    .ok (groupSum (· ≤ ·) (t.rows.map (fun r => (rowYear t r, r.value))))

/-- The minimum of the year keys of a yearly-totals table (int(y.min())
in the source; only evaluated on a non-empty table). -/
def yearsMin (y : List (Int × ℚ)) : Int :=
  ((y.map Prod.fst).min?).getD 0

/-- The maximum of the year keys of a yearly-totals table. -/
def yearsMax (y : List (Int × ℚ)) : Int :=
  ((y.map Prod.fst).max?).getD 0

/-- Computable kernel of cagr (src/utils/metrics.py lines 25-41): performs
every test and data access of the source and returns none for each NaN
branch, and (v0, v1, n) for the defined branch, whose float value is
(v1 / v0) ** (1 / n) - 1. -/
def cagrK (t : MTable) (start_year end_year : Option Int) :
    Except String (Option (ℚ × ℚ × Int)) :=
  match yearly_sum t with
  | .error msg => .error msg
  | .ok y =>
    .ok (
      if y.isEmpty ∨ y.all (fun p => p.2 ≤ 0) then none
      else
        let s := start_year.getD (yearsMin y)
        let e := end_year.getD (yearsMax y)
        let y2 := y.filter (fun p => s ≤ p.1 ∧ p.1 ≤ e)
        if y2.isEmpty then none
        else
          let v0 := ((y2.filter (fun p => p.1 = s)).map Prod.snd).sum
          let v1 := ((y2.filter (fun p => p.1 = e)).map Prod.snd).sum
          let n : Int := max 1 (e - s)
          if v0 ≤ 0 ∨ v1 ≤ 0 then none
          else some (v0, v1, n))

/-- Embedding of cagr (src/utils/metrics.py lines 25-41): the kernel with
its defined branch interpreted as the real number (v1 / v0) ^ (1 / n) - 1;
none is the NaN result, .error the ValueError from _yearly_sum. -/
noncomputable def cagr (t : MTable) (start_year end_year : Option Int) :
    Except String (Option ℝ) :=
  (cagrK t start_year end_year).map
    (Option.map (fun p => ((p.2.1 : ℝ) / (p.1 : ℝ)) ^ ((1 : ℝ) / (p.2.2 : ℝ)) - 1))

/-- Embedding of recovery_vs_baseline_year (src/utils/metrics.py lines
73-80): latest-year total over baseline-year total, times 100; NaN when
the yearly table is empty or the baseline total is zero. -/
def recovery_vs_baseline_year (t : MTable) (baseline_year : Int) :
    Except String (Option ℚ) :=
  match yearly_sum t with
  | .error msg => .error msg
  | .ok y =>
    .ok (
      if y.isEmpty then none
      else
        let current_year := yearsMax y
        let base := ((y.filter (fun p => p.1 = baseline_year)).map Prod.snd).sum
        let curr := ((y.filter (fun p => p.1 = current_year)).map Prod.snd).sum
        if base = 0 then none else some (curr / base * 100))

/-!  ## src/utils/metrics.py : date-sorted series metrics  -/

/-- One row of a date-keyed series: the date cell (a month index) and the
selected value column cell. -/
structure SRow where
  date : Int
  value : Option ℚ
  deriving DecidableEq

/-- A frame passed to the series metrics: rows plus whether the frame has
a date column. -/
structure STable where
  hasDate : Bool
  rows : List SRow
  deriving DecidableEq

/-- Row order used by sort_values("date"). -/
def dateLe (a b : SRow) : Prop := a.date ≤ b.date

instance : DecidableRel dateLe := fun a b => by
  unfold dateLe; infer_instance

/-- Embedding of mom (src/utils/metrics.py lines 53-62): percentage change
of the last point versus the previous point of the date-sorted series.
The source guard (prev and prev != 0) lets a NaN previous value through,
after which the float arithmetic itself yields NaN; both paths give none. -/
def mom (t : STable) : Option ℚ :=
  if t.hasDate = false ∨ t.rows.isEmpty then none
  else
    let d := List.insertionSort dateLe t.rows
    if d.length < 2 then none
    else
      match d.reverse with
      | lastR :: prevR :: _ =>
        match prevR.value with
        | none => none
        | some p =>
          if p = 0 then none
          else lastR.value.map (fun l => (l / p - 1) * 100)
      | _ => none

/-- Embedding of recent_yoy (src/utils/metrics.py lines 64-71): last value
versus the value 13 positions earlier in the date-sorted series, percent. -/
def recent_yoy (t : STable) : Option ℚ :=
  if t.hasDate = false ∨ t.rows.length < 13 then none
  else
    let d := List.insertionSort dateLe t.rows
    match (d.reverse).head?, (d.reverse).get? 12 with
    | some lastR, some prevR =>
      match prevR.value with
      | none => none
      | some p =>
        if p = 0 then none
        else lastR.value.map (fun l => (l / p - 1) * 100)
    | _, _ => none

/-- The yoy value of position i of a padded value list: filled i over
filled (i-12), minus 1, times 100 (pct_change(periods=12) after its
default forward fill; the first 12 positions and zero denominators give
NaN). -/
def pctAt (filled : List (Option ℚ)) (i : Nat) : Option ℚ :=
  if i < 12 then none
  else
    match filled.get? (i - 12), filled.get? i with
    | some (some prev), some (some cur) =>
      if prev = 0 then none else some ((cur / prev - 1) * 100)
    | _, _ => none

/-- Forward fill of a value list (the pad fill used by pct_change). -/
def ffill : List (Option ℚ) → Option ℚ → List (Option ℚ)
  | [], _ => []
  | x :: xs, carry =>
    let c := match x with | some v => some v | none => carry
    c :: ffill xs c

/-- Embedding of yoy_monthly (src/utils/metrics.py lines 43-51): the
date-sorted series with a year-over-year percent column appended; an empty
table when the frame has no date column. -/
def yoy_monthly (t : STable) : List (Int × Option ℚ × Option ℚ) :=
  if t.hasDate = false then []
  else
    let d := List.insertionSort dateLe t.rows
    let filled := ffill (d.map SRow.value) none
    d.enum.map (fun p => (p.2.date, p.2.value, pctAt filled p.1))

/-- The calendar month (1-12) of a month-index date cell. -/
def monthOf (d : Int) : Int := d % 12 + 1

/-- Embedding of seasonality_index (src/utils/metrics.py lines 82-94):
mean value per calendar month divided by the mean of the monthly means;
an empty table when the frame has no date column or the overall mean is
zero or NaN. -/
def seasonality_index (t : STable) : List (Int × Option ℚ) :=
  if t.hasDate = false then []
  else
    let monthly := groupMean (· ≤ ·) (t.rows.map (fun r => (monthOf r.date, r.value)))
    let overall := qmean (monthly.map Prod.snd)
    match overall with
    | none => []
    | some ov =>
      if ov = 0 then []
      else monthly.map (fun p => (p.1, p.2.map (fun v => v / ov)))

/-!  ## src/utils/metrics.py : concentration metrics  -/

/-- Embedding of hhi_concentration (src/utils/metrics.py lines 96-105):
sum of squared entity shares; NaN when the frame is empty, a named column
is absent, or the grand total is not positive. The fillna(0.0) of the
source is a no-op here because group sums are never NaN. -/
def hhi_concentration (hasCols : Bool) (rows : List (String × Option ℚ)) : Option ℚ :=
  if rows.isEmpty ∨ hasCols = false then none
  else if ((groupSum (κ := String) (· ≤ ·) rows).map Prod.snd).sum ≤ 0 then none
  else some (((groupSum (κ := String) (· ≤ ·) rows).map
    (fun p => (p.2 / ((groupSum (κ := String) (· ≤ ·) rows).map Prod.snd).sum) ^ 2)).sum)

/-- Embedding of topn_share (src/utils/metrics.py lines 107-112): summed
share of the n largest entities; NaN when the frame is empty, a named
column is absent, or the grand total is zero. -/
def topn_share (hasCols : Bool) (rows : List (String × Option ℚ)) (n : Nat) : Option ℚ :=
  if rows.isEmpty ∨ hasCols = false then none
  else
    let s := List.insertionSort (fun a b => b.2 ≤ a.2) (groupSum (· ≤ ·) rows)
    let total := (s.map Prod.snd).sum
    if total = 0 then none
    else some (((s.take n).map Prod.snd).sum / total)

/-!  ## src/utils/metrics.py : contribution to change  -/

/-- One row as read by contribution_to_change: date cell, entity, value. -/
structure CRow where
  date : Option Int
  entity : String
  value : Option ℚ
  deriving DecidableEq

/-- Whether a date cell falls inside a closed period; a missing date (NaT)
compares False on both bounds and is excluded. -/
def inPeriod (d : Option Int) (p : Int × Int) : Bool :=
  match d with
  | some x => decide (p.1 ≤ x ∧ x ≤ p.2)
  | none => false

/-- Embedding of contribution_to_change (src/utils/metrics.py lines
114-141): per-entity sums over the two periods, their delta and the share
of the total delta (a NaN column when the total delta is zero), sorted by
delta descending and truncated to top_n; empty when the frame has no date
column. Result rows are (entity, value_A, value_B, delta, share). -/
def contribution_to_change (hasDate : Bool) (rows : List CRow)
    (pA pB : Int × Int) (top_n : Nat) : List (String × ℚ × ℚ × ℚ × Option ℚ) :=
  if hasDate = false then []
  else
    let a := rows.filter (fun r => inPeriod r.date pA)
    let b := rows.filter (fun r => inPeriod r.date pB)
    let aSum := groupSum (κ := String) (· ≤ ·) (a.map (fun r => (r.entity, r.value)))
    let bSum := groupSum (κ := String) (· ≤ ·) (b.map (fun r => (r.entity, r.value)))
    let allKeys := List.insertionSort (α := String) (· ≤ ·)
      ((aSum.map Prod.fst ++ bSum.map Prod.fst).dedup)
    let out := allKeys.map (fun k =>
      let vA := qlookup aSum k
      let vB := qlookup bSum k
      (k, vA, vB, vB - vA))
    let totalDelta := (out.map (fun p => p.2.2.2)).sum
    let out2 := out.map (fun p =>
      (p.1, p.2.1, p.2.2.1, p.2.2.2,
        if totalDelta = 0 then (none : Option ℚ) else some (p.2.2.2 / totalDelta)))
    (List.insertionSort (fun p q => q.2.2.2.1 ≤ p.2.2.2.1) out2).take top_n

/-!  ## src/utils/prep.py : type coercion, schema validation, route keys,
     market share  -/

/-- A raw table cell: a number, a string, or missing (NaN). -/
inductive Cell where
  | num (q : ℚ)
  | str (s : String)
  | missing
  deriving DecidableEq

/-- pd.to_numeric on one cell with errors="coerce": numbers pass through,
strings parse to a number or become missing, missing stays missing.
String parsing is modelled on integer literals. -/
def coerceCell : Cell → Cell
  | .num q => .num q
  | .str s =>
    match s.toInt? with
    | some n => .num n
    | none => .missing
  | .missing => .missing

/-- A raw DataFrame for the column-wise preparation helpers: the named
columns in order, each with its cells. -/
abbrev DFrame := List (String × List Cell)

/-- Embedding of to_numeric (src/utils/prep.py lines 19-24): coerce each
listed column that is present; the source copies the frame first, so a new
frame is returned and every unlisted column is carried over unchanged. -/
def to_numeric (df : DFrame) (cols : List String) : DFrame :=
  df.map (fun c => if c.1 ∈ cols then (c.1, c.2.map coerceCell) else c)

/-- Python str.lower on a column name, modelled character-wise. -/
def lower (s : String) : String := String.mk (s.data.map Char.toLower)

/-- The KNOWN_DERIVED allow-list of src/utils/prep.py lines 72-79. -/
def KNOWN_DERIVED : Finset String :=
  {"date", "year", "month", "quarter",
   "passagers_total", "fret_total", "has_geo",
   "route_dir", "route_pair"}

/-- The report returned by validate_schema. -/
structure SchemaReport where
  missing : List String
  extras : List String
  derived : List String
  deriving DecidableEq

/-- Embedding of validate_schema (src/utils/prep.py lines 81-94): compare
the present column set to the lower-cased expected schema, classifying
discrepancies into missing / extras / derived; each output list is sorted.
The function only builds a report and never raises. -/
def validate_schema (present : Finset String) (expected : List String)
    (allowed_extras : Option (List String)) : SchemaReport :=
  let exp : Finset String := (expected.map lower).toFinset
  let allowed : Finset String :=
    KNOWN_DERIVED ∪ ((allowed_extras.getD []).map lower).toFinset
  { missing := (exp.filter (fun c => c ∉ present)).sort (· ≤ ·)
    extras := (present.filter (fun c => c ∉ exp ∧ c ∉ allowed)).sort (· ≤ ·)
    derived := ((present ∩ allowed) \ exp).sort (· ≤ ·) }

/-- The directed route key derived by prep_lsn (src/utils/prep.py line
159): origin, arrow, destination. -/
def route_dir (lsn_1 lsn_2 : String) : String :=
  lsn_1 ++ " → " ++ lsn_2

/-- The undirected route key derived by prep_lsn (src/utils/prep.py lines
160-164): the two endpoints joined with a dash, the smaller endpoint
first. -/
def route_pair (lsn_1 lsn_2 : String) : String :=
  if lsn_1 < lsn_2 then lsn_1 ++ " — " ++ lsn_2 else lsn_2 ++ " — " ++ lsn_1

/-- Embedding of agg_cie_market_share (src/utils/prep.py lines 342-349):
group by airline, sum cie_pax, sort descending, attach each share of the
grand total, and keep the first top_n rows. The share cell is none when
the grand total is zero (a float division by zero). Result rows are
(cie, cie_pax, share). -/
def agg_cie_market_share (hasCols : Bool) (rows : List (String × Option ℚ))
    (top_n : Nat) : List (String × ℚ × Option ℚ) :=
  if hasCols = false then []
  else
    let totals := List.insertionSort (fun a b => b.2 ≤ a.2)
      (groupSum (κ := String) (· ≤ ·) rows)
    let grand := (totals.map Prod.snd).sum
    (totals.map (fun p =>
      (p.1, p.2, if grand = 0 then (none : Option ℚ) else some (p.2 / grand)))).take top_n

/-!  ## src/utils/metrics.py : KPI bundles  -/

/-- A value stored in a KPI mapping: a float (possibly NaN), a text label
(possibly None), or a timestamp (possibly None). -/
inductive KVal where
  | num : Option ℝ → KVal
  | text : Option String → KVal
  | date : Option Int → KVal

/-- First row attaining the maximum value (idxmax of a time series). -/
def tsArgmax (ts : List (Int × ℚ)) : Option (Int × ℚ) :=
  match ts with
  | [] => none
  | h :: t => some (t.foldl (fun best p => if best.2 < p.2 then p else best) h)

/-- One row as read by kpis_apt: identity, period and flow cells. -/
structure AptRow where
  date : Option Int
  year : Int
  code_aeroport : String
  nom_aeroport : String
  passagers_total : Option ℚ
  passagers_depart : Option ℚ
  passagers_arrivee : Option ℚ
  fret_total : Option ℚ
  fret_depart : Option ℚ
  fret_arrivee : Option ℚ

/-- An airport frame: rows plus presence flags of the optional columns
kpis_apt reads through DataFrame.get. -/
structure AptFrame where
  hasPassagersTotal : Bool
  hasPassagersDepart : Bool
  hasPassagersArrivee : Bool
  hasFretTotal : Bool
  hasFretDepart : Bool
  hasFretArrivee : Bool
  hasYear : Bool
  hasDate : Bool
  rows : List AptRow

/-- The passagers_total column assigned by kpis_apt (line 151):
get("passagers_total", get("passagers_depart", 0)) plus
get("passagers_arrivee", 0), with scalar 0 defaults. -/
def aptPax (f : AptFrame) (r : AptRow) : Option ℚ :=
  optAdd
    (if f.hasPassagersTotal then r.passagers_total
     else if f.hasPassagersDepart then r.passagers_depart else some 0)
    (if f.hasPassagersArrivee then r.passagers_arrivee else some 0)

/-- The fret_total column assigned by kpis_apt (line 152). -/
def aptFret (f : AptFrame) (r : AptRow) : Option ℚ :=
  optAdd
    (if f.hasFretTotal then r.fret_total
     else if f.hasFretDepart then r.fret_depart else some 0)
    (if f.hasFretArrivee then r.fret_arrivee else some 0)

/-- The date-keyed passenger time series built by kpis (groupby date with
the NaT group dropped, keys ascending). -/
def tsOf {ρ : Type} (rows : List ρ) (dateOf : ρ → Option Int) (valOf : ρ → Option ℚ) :
    List (Int × ℚ) :=
  groupSum (· ≤ ·) (rows.filterMap (fun r => (dateOf r).map (fun d => (d, valOf r))))

/-- Embedding of kpis_apt (src/utils/metrics.py lines 147-195): an empty
mapping for an empty frame, otherwise the thirteen named KPI scalars. -/
noncomputable def kpis_apt (f : AptFrame) : Except String (List (String × KVal)) :=
  if f.rows.isEmpty then .ok []
  else do
    let pax := aptPax f
    let total_pax := nsum (f.rows.map pax)
    let total_freight := nsum (f.rows.map (aptFret f))
    let g_air := List.insertionSort (fun a b => b.2 ≤ a.2)
      (groupSum pairLe (f.rows.map (fun r => ((r.code_aeroport, r.nom_aeroport), pax r))))
    let top := g_air.head?
    let ts := tsOf f.rows AptRow.date pax
    let peak := tsArgmax ts
    let stbl : STable := ⟨true, ts.map (fun p => ⟨p.1, some p.2⟩)⟩
    let mt : MTable := ⟨f.hasYear, f.hasDate, f.rows.map (fun r => ⟨r.year, r.year, pax r⟩)⟩
    let yoy_pct := recent_yoy stbl
    let mom_pct := mom stbl
    let rec2019 ← recovery_vs_baseline_year mt 2019
    let growth ← cagr mt none none
    let hhi_air := hhi_concentration true (f.rows.map (fun r => (r.code_aeroport, pax r)))
    let top3 := topn_share true (f.rows.map (fun r => (r.code_aeroport, pax r))) 3
    .ok
      [("total_passengers", .num (some (total_pax : ℝ))),
       ("total_freight", .num (some (total_freight : ℝ))),
       ("top_airport_code", .text (top.map (fun p => p.1.1))),
       ("top_airport_name", .text (top.map (fun p => p.1.2))),
       ("top_airport_pax", .num (some (((top.map Prod.snd).getD 0 : ℚ) : ℝ))),
       ("peak_month_date", .date (peak.map Prod.fst)),
       ("peak_month_pax", .num (peak.map (fun p => (p.2 : ℝ)))),
       ("yoy_pct", .num (yoy_pct.map (fun q => (q : ℝ)))),
       ("mom_pct", .num (mom_pct.map (fun q => (q : ℝ)))),
       ("recovery_vs_2019_pct", .num (rec2019.map (fun q => (q : ℝ)))),
       ("cagr", .num growth),
       ("hhi_airports", .num (hhi_air.map (fun q => (q : ℝ)))),
       ("top3_airport_share", .num (top3.map (fun q => (q : ℝ))))]

/-- One row as read by kpis_cie. -/
structure CieRow where
  date : Option Int
  year : Int
  cie : String
  cie_nom : String
  cie_pax : Option ℚ
  cie_vol : Option ℚ

/-- An airline frame: rows plus presence flags of the optional columns. -/
structure CieFrame where
  hasCiePax : Bool
  hasCieVol : Bool
  hasYear : Bool
  hasDate : Bool
  rows : List CieRow

/-- The cie_pax column assigned by kpis_cie (line 205): the existing
column, or the scalar default 0. -/
def ciePax (f : CieFrame) (r : CieRow) : Option ℚ :=
  if f.hasCiePax then r.cie_pax else some 0

/-- The cie_vol column assigned by kpis_cie (line 206). -/
def cieVol (f : CieFrame) (r : CieRow) : Option ℚ :=
  if f.hasCieVol then r.cie_vol else some 0

/-- Embedding of kpis_cie (src/utils/metrics.py lines 201-244): an empty
mapping for an empty frame, otherwise the eleven named KPI scalars. The
source tests whether cie_vol is a column after having just assigned it, so
the test is always true and total_flights_reported is always the sum. -/
noncomputable def kpis_cie (f : CieFrame) : Except String (List (String × KVal)) :=
  if f.rows.isEmpty then .ok []
  else do
    let pax := ciePax f
    let total_pax := nsum (f.rows.map pax)
    let total_flights := nsum (f.rows.map (cieVol f))
    let g_airline := List.insertionSort (fun a b => b.2 ≤ a.2)
      (groupSum pairLe (f.rows.map (fun r => ((r.cie, r.cie_nom), pax r))))
    let top := g_airline.head?
    let ts := tsOf f.rows CieRow.date pax
    let stbl : STable := ⟨true, ts.map (fun p => ⟨p.1, some p.2⟩)⟩
    let mt : MTable := ⟨f.hasYear, f.hasDate, f.rows.map (fun r => ⟨r.year, r.year, pax r⟩)⟩
    let yoy_pct := recent_yoy stbl
    let mom_pct := mom stbl
    let rec2019 ← recovery_vs_baseline_year mt 2019
    let growth ← cagr mt none none
    let hhi_airlines := hhi_concentration true (f.rows.map (fun r => (r.cie, pax r)))
    let top3 := topn_share true (f.rows.map (fun r => (r.cie, pax r))) 3
    .ok
      [("total_airline_passengers", .num (some (total_pax : ℝ))),
       ("total_flights_reported", .num (some (total_flights : ℝ))),
       ("top_airline_code", .text (top.map (fun p => p.1.1))),
       ("top_airline_name", .text (top.map (fun p => p.1.2))),
       ("top_airline_pax", .num (some (((top.map Prod.snd).getD 0 : ℚ) : ℝ))),
       ("yoy_pct", .num (yoy_pct.map (fun q => (q : ℝ)))),
       ("mom_pct", .num (mom_pct.map (fun q => (q : ℝ)))),
       ("recovery_vs_2019_pct", .num (rec2019.map (fun q => (q : ℝ)))),
       ("cagr", .num growth),
       ("hhi_airlines", .num (hhi_airlines.map (fun q => (q : ℝ)))),
       ("top3_airline_share", .num (top3.map (fun q => (q : ℝ))))]

/-- One row as read by kpis_lsn. -/
structure LsnRow where
  date : Option Int
  year : Int
  lsn_pax : Option ℚ
  route_pair : String
  route_dir : String
  lsn_seg : String

/-- A route frame: rows plus presence flags of the optional columns. -/
structure LsnFrame where
  hasLsnPax : Bool
  hasRoutePair : Bool
  hasRouteDir : Bool
  hasLsnSeg : Bool
  hasYear : Bool
  hasDate : Bool
  rows : List LsnRow

/-- The lsn_pax column assigned by kpis_lsn (line 254). -/
def lsnPax (f : LsnFrame) (r : LsnRow) : Option ℚ :=
  if f.hasLsnPax then r.lsn_pax else some 0

/-- The route key column kpis_lsn falls back to when route_pair is absent:
route_dir if present, else lsn_seg if present. -/
def lsnFallbackKey (f : LsnFrame) : Option (LsnRow → String) :=
  if f.hasRouteDir then some LsnRow.route_dir
  else if f.hasLsnSeg then some LsnRow.lsn_seg
  else none

/-- Embedding of kpis_lsn (src/utils/metrics.py lines 250-299): an empty
mapping for an empty frame, otherwise the nine named KPI scalars, the
route-keyed ones grouped by route_pair when present, else by the fallback
key, else defaulted. -/
noncomputable def kpis_lsn (f : LsnFrame) : Except String (List (String × KVal)) :=
  if f.rows.isEmpty then .ok []
  else do
    let pax := lsnPax f
    let total_pax := nsum (f.rows.map pax)
    let keyOf : Option (LsnRow → String) :=
      if f.hasRoutePair then some LsnRow.route_pair else lsnFallbackKey f
    let topInfo : Option String × ℚ :=
      match keyOf with
      | none => (none, 0)
      | some key =>
        let g := List.insertionSort (fun a b => b.2 ≤ a.2)
          (groupSum (κ := String) (· ≤ ·) (f.rows.map (fun r => (key r, pax r))))
        ((g.head?).map Prod.fst, ((g.head?).map Prod.snd).getD 0)
    let ts := tsOf f.rows LsnRow.date pax
    let stbl : STable := ⟨true, ts.map (fun p => ⟨p.1, some p.2⟩)⟩
    let mt : MTable := ⟨f.hasYear, f.hasDate, f.rows.map (fun r => ⟨r.year, r.year, pax r⟩)⟩
    let yoy_pct := recent_yoy stbl
    let mom_pct := mom stbl
    let rec2019 ← recovery_vs_baseline_year mt 2019
    let growth ← cagr mt none none
    let hhi_routes : Option ℚ :=
      match keyOf with
      | none => none
      | some key => hhi_concentration true (f.rows.map (fun r => (key r, pax r)))
    let top3 : Option ℚ :=
      match keyOf with
      | none => none
      | some key => topn_share true (f.rows.map (fun r => (key r, pax r))) 3
    .ok
      [("total_route_passengers", .num (some (total_pax : ℝ))),
       ("top_route", .text topInfo.1),
       ("top_route_pax", .num (some ((topInfo.2 : ℚ) : ℝ))),
       ("yoy_pct", .num (yoy_pct.map (fun q => (q : ℝ)))),
       ("mom_pct", .num (mom_pct.map (fun q => (q : ℝ)))),
       ("recovery_vs_2019_pct", .num (rec2019.map (fun q => (q : ℝ)))),
       ("cagr", .num growth),
       ("hhi_routes", .num (hhi_routes.map (fun q => (q : ℝ)))),
       ("top3_route_share", .num (top3.map (fun q => (q : ℝ))))]

/-!  ## Derived notions used by the theorems  -/

/-- The grouped yearly totals that _yearly_sum produces for a frame that
has a year or date column. -/
def groupSumOf (t : MTable) : List (Int × ℚ) :=
  groupSum (· ≤ ·) (t.rows.map (fun r => (rowYear t r, r.value)))

/-- The yearly total that cagr reads for one endpoint year: the sum of the
grouped rows carrying that year. -/
def yearTotal (t : MTable) (y0 : Int) : ℚ :=
  (((groupSumOf t).filter (fun p => p.1 = y0)).map Prod.snd).sum

/-- The grand total that hhi_concentration divides by: the sum of the
per-entity group sums. -/
def grandTotal (rows : List (String × Option ℚ)) : ℚ :=
  ((groupSum (κ := String) (· ≤ ·) rows).map Prod.snd).sum

/-- One entity holds 100 percent of the distribution: some grouped entity
carries the whole grand total and every other grouped entity carries 0. -/
def singleHolder (rows : List (String × Option ℚ)) : Prop :=
  ∃ p ∈ groupSum (κ := String) (· ≤ ·) rows,
    p.2 = grandTotal rows ∧
      ∀ q ∈ groupSum (κ := String) (· ≤ ·) rows, q.1 ≠ p.1 → q.2 = 0

/-!  ## Helper lemmas  -/

/-- Every key of a grouped table is a key of some input row. -/
theorem groupSum_key_mem {κ : Type} [DecidableEq κ] (le : κ → κ → Prop) [DecidableRel le]
    {l : List (κ × Option ℚ)} {p : κ × ℚ} (hp : p ∈ groupSum le l) :
    p.1 ∈ l.map Prod.fst := by
  unfold groupSum at hp
  rcases List.mem_map.mp hp with ⟨k, hk, rfl⟩
  exact List.mem_dedup.mp ((List.mem_insertionSort le).mp hk)

/-- Grouping an empty table yields an empty table. -/
theorem groupSum_nil {κ : Type} [DecidableEq κ] (le : κ → κ → Prop) [DecidableRel le] :
    groupSum le ([] : List (κ × Option ℚ)) = [] := by
  simp [groupSum]

/-- With a year or a date column present, yearly_sum returns the grouped
totals and does not raise. -/
theorem yearly_sum_ok {t : MTable} (hcol : t.hasYear = true ∨ t.hasDate = true) :
    yearly_sum t = .ok (groupSumOf t) := by
  unfold yearly_sum groupSumOf
  rcases hcol with h | h <;> simp [h]

/-!  ## C7 : route-pair symmetry  -/

/-- C7: the undirected route key built by prep_lsn is invariant under
swapping origin and destination, because the two endpoint identifiers are
ordered lexicographically before concatenation. -/
theorem route_pair_symm (a b : String) : route_pair a b = route_pair b a := by
  unfold route_pair
  rcases lt_trichotomy a b with h | h | h
  · rw [if_pos h, if_neg (not_lt.mpr (le_of_lt h))]
  · subst h; rfl
  · rw [if_neg (not_lt.mpr (le_of_lt h)), if_pos h]

/-!  ## C8 : to_numeric frame effect  -/

/-- C8: to_numeric keeps the column names of the input frame and carries
every column outside the given list over unchanged; as a pure function of
the (copied) input it cannot mutate it. -/
theorem to_numeric_frame (df : DFrame) (cols : List String)
    (p : String × List Cell) (hp : p ∈ df) (hc : p.1 ∉ cols) :
    p ∈ to_numeric df cols ∧ (to_numeric df cols).map Prod.fst = df.map Prod.fst := by
  constructor
  · unfold to_numeric
    refine List.mem_map.mpr ⟨p, hp, ?_⟩
    simp [hc]
  · unfold to_numeric
    rw [List.map_map]
    apply List.map_congr_left
    intro x hx
    by_cases h : x.1 ∈ cols <;> simp [h]

/-- Witness for C8 at a concrete two-column frame. -/
theorem to_numeric_frame_witness :
    ("a", [Cell.str "x"]) ∈
        to_numeric [("a", [Cell.str "x"]), ("b", [Cell.num 1])] ["b"] ∧
      (to_numeric [("a", [Cell.str "x"]), ("b", [Cell.num 1])] ["b"]).map Prod.fst =
        [("a", [Cell.str "x"]), ("b", [Cell.num 1])].map Prod.fst :=
  to_numeric_frame [("a", [Cell.str "x"]), ("b", [Cell.num 1])] ["b"]
    ("a", [Cell.str "x"]) (by decide) (by decide)

/-!  ## C10 : KPI bundles on an empty frame  -/

/-- C10: each KPI bundling function returns the empty mapping, with no
keys at all, on a zero-row frame. -/
theorem kpis_empty_mapping (fa : AptFrame) (fc : CieFrame) (fl : LsnFrame)
    (ha : fa.rows = []) (hc : fc.rows = []) (hl : fl.rows = []) :
    kpis_apt fa = .ok [] ∧ kpis_cie fc = .ok [] ∧ kpis_lsn fl = .ok [] := by
  refine ⟨?_, ?_, ?_⟩
  · unfold kpis_apt; rw [ha]; rfl
  · unfold kpis_cie; rw [hc]; rfl
  · unfold kpis_lsn; rw [hl]; rfl

/-- Witness for C10 at concrete empty frames. -/
theorem kpis_empty_mapping_witness :
    kpis_apt ⟨true, true, true, true, true, true, true, true, []⟩ = .ok [] ∧
      kpis_cie ⟨true, true, true, true, []⟩ = .ok [] ∧
      kpis_lsn ⟨true, true, true, true, true, true, []⟩ = .ok [] :=
  kpis_empty_mapping _ _ _ rfl rfl rfl

/-!  ## C2 : totality on empty input  -/

/-- C2 counterexample: cagr applied to a zero-row table that has neither a
year nor a date column raises the ValueError of _yearly_sum instead of
returning NaN, so not every core function is total. -/
theorem cagr_error_without_year_or_date :
    cagr ⟨false, false, []⟩ none none = .error yearlySumErr := by
  rfl

/-- C2 amended: every embedded metric and market-share function returns an
empty table or NaN on a zero-row frame, provided the frame keeps a year or
a date column where the yearly-total functions require one. -/
theorem metrics_total_on_empty
    (t : MTable) (ht : t.rows = []) (hcol : t.hasYear = true ∨ t.hasDate = true)
    (s : STable) (hs : s.rows = [])
    (hasCols hasDate2 : Bool) (n top_n : Nat) (bl : Int) (sy ey : Option Int)
    (pA pB : Int × Int) :
    cagr t sy ey = .ok none ∧
    recovery_vs_baseline_year t bl = .ok none ∧
    mom s = none ∧
    recent_yoy s = none ∧
    yoy_monthly s = [] ∧
    seasonality_index s = [] ∧
    hhi_concentration hasCols [] = none ∧
    topn_share hasCols [] n = none ∧
    contribution_to_change hasDate2 [] pA pB top_n = [] ∧
    agg_cie_market_share hasCols [] top_n = [] := by
  have hys : yearly_sum t = .ok [] := by
    rw [yearly_sum_ok hcol]
    simp [groupSumOf, ht, groupSum]
  refine ⟨?_, ?_, ?_, ?_, ?_, ?_, ?_, ?_, ?_, ?_⟩
  · simp [cagr, cagrK, hys, bind, Except.bind, pure, Except.pure, Except.map]
  · simp [recovery_vs_baseline_year, hys, bind, Except.bind, pure, Except.pure]
  · simp [mom, hs]
  · simp [recent_yoy, hs]
  · unfold yoy_monthly
    rcases h : s.hasDate <;> simp [h, hs]
  · unfold seasonality_index
    rcases h : s.hasDate <;> simp [h, hs, groupMean, qmean]
  · simp [hhi_concentration]
  · simp [topn_share]
  · unfold contribution_to_change
    rcases h : hasDate2 <;> simp [h, groupSum]
  · unfold agg_cie_market_share
    rcases h : hasCols <;> simp [h, groupSum]

/-- Witness for C2 at concrete empty frames. -/
theorem metrics_total_on_empty_witness :
    cagr ⟨true, false, []⟩ none none = .ok none ∧
    recovery_vs_baseline_year ⟨true, false, []⟩ 2019 = .ok none ∧
    mom ⟨true, []⟩ = none ∧
    recent_yoy ⟨true, []⟩ = none ∧
    yoy_monthly ⟨true, []⟩ = [] ∧
    seasonality_index ⟨true, []⟩ = [] ∧
    hhi_concentration true [] = none ∧
    topn_share true [] 3 = none ∧
    contribution_to_change true [] (0, 1) (2, 3) 10 = [] ∧
    agg_cie_market_share true [] 10 = [] :=
  metrics_total_on_empty ⟨true, false, []⟩ rfl (Or.inl rfl) ⟨true, []⟩ rfl
    true true 3 10 2019 none none (0, 1) (2, 3)

/-!  ## C9 : recovery with an absent baseline year  -/

/-- C9: when no row carries the baseline year, recovery_vs_baseline_year
returns NaN — not zero and not an exception — because the baseline total
sums to zero over an empty selection and the zero guard yields NaN. -/
theorem recovery_baseline_absent (t : MTable)
    (hcol : t.hasYear = true ∨ t.hasDate = true) (bl : Int)
    (hb : ∀ r ∈ t.rows, rowYear t r ≠ bl) :
    recovery_vs_baseline_year t bl = .ok none := by
  unfold recovery_vs_baseline_year
  rw [yearly_sum_ok hcol]
  set y := groupSumOf t with hy
  have hfilter : y.filter (fun p => p.1 = bl) = [] := by
    rw [List.filter_eq_nil_iff]
    intro p hp
    have hp2 : p ∈ groupSum (· ≤ ·) (t.rows.map (fun r => (rowYear t r, r.value))) := by
      rw [hy] at hp; exact hp
    have hkey := groupSum_key_mem (· ≤ ·) hp2
    rcases List.mem_map.mp hkey with ⟨r, hr, hr2⟩
    rcases List.mem_map.mp hr with ⟨r0, hr0, rfl⟩
    simp only [decide_eq_true_eq]
    rw [← hr2]
    exact hb r0 hr0
  rcases hyy : y with _ | ⟨p, rest⟩
  · rfl
  · rw [← hyy]
    have hne : y ≠ [] := by rw [hyy]; simp
    simp [bind, Except.bind, pure, Except.pure, hne, hfilter]

/-!  ## C5 : month-over-month  -/

/-- C5 counterexample: on the two-point series 1, 2 the source returns the
percentage 100.0, not the ratio (2 / 1) - 1 = 1 stated by the claim. -/
theorem mom_counterexample :
    mom ⟨true, [⟨0, some 1⟩, ⟨1, some 2⟩]⟩ = some 100 ∧
      ((100 : ℚ) ≠ (2 : ℚ) / 1 - 1) := by
  have h : mom ⟨true, [⟨0, some 1⟩, ⟨1, some 2⟩]⟩ = some ((2 / 1 - 1) * 100) := by
    rfl
  constructor
  · rw [h]; norm_num
  · norm_num

/-- C5 amended: on a date-sorted series mom returns the percentage
((last / previous) - 1) * 100 when the previous value is present and
non-zero, and NaN with fewer than 2 points or a zero or missing previous
value. -/
theorem mom_spec (t : STable) (hd : t.hasDate = true)
    (hsort : List.Sorted dateLe t.rows) :
    (t.rows.length < 2 → mom t = none) ∧
    (∀ lastR prevR rest, t.rows.reverse = lastR :: prevR :: rest →
      ((prevR.value = none ∨ prevR.value = some 0) → mom t = none) ∧
      (∀ lv pv, lastR.value = some lv → prevR.value = some pv → pv ≠ 0 →
        mom t = some ((lv / pv - 1) * 100))) := by
  have hsortEq : List.insertionSort dateLe t.rows = t.rows :=
    List.Sorted.insertionSort_eq hsort
  constructor
  · intro hlen
    by_cases he : t.rows.isEmpty
    · simp [mom, he]
    · simp [mom, hd, he, hsortEq, hlen]
  · intro lastR prevR rest hrev
    have hlenr : t.rows.length = rest.length + 2 := by
      have h1 : t.rows.reverse.length = t.rows.length := List.length_reverse t.rows
      rw [hrev] at h1
      simpa using h1.symm
    have hlen2 : ¬ t.rows.length < 2 := by omega
    have hne : ¬ t.rows.isEmpty := by
      rw [List.isEmpty_iff_length_eq_zero]
      omega
    constructor
    · rintro (h | h) <;> simp [mom, hd, hne, hsortEq, hlen2, hrev, h]
    · intro lv pv hl hp hpz
      simp [mom, hd, hne, hsortEq, hlen2, hrev, hp, hpz, hl]

/-- Witness for C5 at a concrete sorted two-point series. -/
theorem mom_spec_witness :
    mom ⟨true, [⟨0, some 1⟩, ⟨1, some 3⟩]⟩ = some ((3 / 1 - 1) * 100) :=
  ((mom_spec ⟨true, [⟨0, some 1⟩, ⟨1, some 3⟩]⟩ rfl (by decide)).2
    ⟨1, some 3⟩ ⟨0, some 1⟩ [] (by rfl)).2 3 1 rfl rfl (by norm_num)

/-!  ## C3 : cagr endpoint behaviour  -/

/-- A list of non-positive rationals has non-positive sum. -/
theorem list_sum_nonpos {l : List ℚ} (h : ∀ x ∈ l, x ≤ 0) : l.sum ≤ 0 := by
  induction l with
  | nil => simp
  | cons a l ih =>
    simp only [List.sum_cons]
    have ha := h a (by simp)
    have hl := ih (fun x hx => h x (by simp [hx]))
    linarith

/-- When every grouped yearly total is non-positive, so is every endpoint
total read by cagr. -/
theorem yearTotal_nonpos (t : MTable) (hall : ∀ p ∈ groupSumOf t, p.2 ≤ 0)
    (y0 : Int) : yearTotal t y0 ≤ 0 := by
  apply list_sum_nonpos
  intro x hx
  rcases List.mem_map.mp hx with ⟨p, hp, rfl⟩
  exact hall p (List.mem_of_mem_filter hp)

/-- Evaluation of the cagr kernel at explicit endpoint years once the
yearly table is known. -/
theorem cagrK_some_eq (t : MTable) (s e : Int) {y : List (Int × ℚ)}
    (hys : yearly_sum t = .ok y) :
    cagrK t (some s) (some e) = .ok (
      if y.isEmpty ∨ y.all (fun p => p.2 ≤ 0) then none
      else if (y.filter (fun p => s ≤ p.1 ∧ p.1 ≤ e)).isEmpty then none
      else if (((y.filter (fun p => s ≤ p.1 ∧ p.1 ≤ e)).filter (fun p => p.1 = s)).map Prod.snd).sum ≤ 0
          ∨ (((y.filter (fun p => s ≤ p.1 ∧ p.1 ≤ e)).filter (fun p => p.1 = e)).map Prod.snd).sum ≤ 0 then none
      else some ((((y.filter (fun p => s ≤ p.1 ∧ p.1 ≤ e)).filter (fun p => p.1 = s)).map Prod.snd).sum,
        (((y.filter (fun p => s ≤ p.1 ∧ p.1 ≤ e)).filter (fun p => p.1 = e)).map Prod.snd).sum,
        max 1 (e - s))) := by
  unfold cagrK
  rw [hys]
  rfl

/-- When either requested endpoint has a non-positive yearly total, the
cagr kernel yields NaN. -/
theorem cagrK_endpoint_nonpos (t : MTable) (hcol : t.hasYear = true ∨ t.hasDate = true)
    (s e : Int) (h : yearTotal t s ≤ 0 ∨ yearTotal t e ≤ 0) :
    cagrK t (some s) (some e) = .ok none := by
  rw [cagrK_some_eq t s e (yearly_sum_ok hcol)]
  refine congrArg Except.ok ?_
  by_cases h1 : (groupSumOf t).isEmpty ∨ (groupSumOf t).all (fun p => p.2 ≤ 0)
  · rw [if_pos h1]
  · rw [if_neg h1]
    by_cases h2 : ((groupSumOf t).filter (fun p => s ≤ p.1 ∧ p.1 ≤ e)).isEmpty
    · rw [if_pos h2]
    · have hne : (groupSumOf t).filter (fun p => s ≤ p.1 ∧ p.1 ≤ e) ≠ [] := by
        intro hnil
        rw [hnil] at h2
        simp at h2
      obtain ⟨p, hp⟩ := List.exists_mem_of_ne_nil _ hne
      have hcond := (List.mem_filter.mp hp).2
      simp only [decide_eq_true_eq] at hcond
      have hse : s ≤ e := le_trans hcond.1 hcond.2
      have hfs : ((groupSumOf t).filter (fun p => s ≤ p.1 ∧ p.1 ≤ e)).filter
          (fun p => p.1 = s) = (groupSumOf t).filter (fun p => p.1 = s) := by
        rw [List.filter_filter]
        apply List.filter_congr
        intro a _
        by_cases ha : a.1 = s
        · simp [ha, hse]
        · simp [ha]
      have hfe : ((groupSumOf t).filter (fun p => s ≤ p.1 ∧ p.1 ≤ e)).filter
          (fun p => p.1 = e) = (groupSumOf t).filter (fun p => p.1 = e) := by
        rw [List.filter_filter]
        apply List.filter_congr
        intro a _
        by_cases ha : a.1 = e
        · simp [ha, hse]
        · simp [ha]
      have hdisj : (((((groupSumOf t).filter (fun p => s ≤ p.1 ∧ p.1 ≤ e)).filter
            (fun p => p.1 = s)).map Prod.snd).sum ≤ 0)
          ∨ (((((groupSumOf t).filter (fun p => s ≤ p.1 ∧ p.1 ≤ e)).filter
            (fun p => p.1 = e)).map Prod.snd).sum ≤ 0) := by
        rcases h with h | h
        · left; rw [hfs]; exact h
        · right; rw [hfe]; exact h
      rw [if_neg h2, if_pos hdisj]

/-- With equal endpoints carrying a positive total, the cagr kernel yields
the pair (total, total) with exponent base 1. -/
theorem cagrK_start_eq_end (t : MTable) (hcol : t.hasYear = true ∨ t.hasDate = true)
    (y0 : Int) (hpos : 0 < yearTotal t y0) :
    cagrK t (some y0) (some y0) = .ok (some (yearTotal t y0, yearTotal t y0, 1)) := by
  rw [cagrK_some_eq t y0 y0 (yearly_sum_ok hcol)]
  refine congrArg Except.ok ?_
  have hTdef : yearTotal t y0 =
      (((groupSumOf t).filter (fun p => p.1 = y0)).map Prod.snd).sum := rfl
  have hrange : (groupSumOf t).filter (fun p => y0 ≤ p.1 ∧ p.1 ≤ y0) =
      (groupSumOf t).filter (fun p => p.1 = y0) := by
    apply List.filter_congr
    intro a _
    by_cases ha : a.1 = y0
    · simp [ha]
    · simp only [decide_eq_decide]
      constructor
      · intro hc; omega
      · intro hc; omega
  have h1 : ¬((groupSumOf t).isEmpty ∨ (groupSumOf t).all (fun p => p.2 ≤ 0)) := by
    rintro (h | h)
    · have hnil : groupSumOf t = [] := by simpa using h
      rw [hTdef, hnil] at hpos
      simp at hpos
    · have hall : ∀ p ∈ groupSumOf t, p.2 ≤ 0 := by simpa using h
      have := yearTotal_nonpos t hall y0
      linarith
  have hidem : ((groupSumOf t).filter (fun p => p.1 = y0)).filter (fun p => p.1 = y0) =
      (groupSumOf t).filter (fun p => p.1 = y0) := by
    rw [List.filter_filter]
    apply List.filter_congr
    intro a _
    by_cases ha : a.1 = y0 <;> simp [ha]
  rw [if_neg h1, hrange, hidem]
  have h2 : ¬((groupSumOf t).filter (fun p => p.1 = y0)).isEmpty := by
    intro h
    have hnil : (groupSumOf t).filter (fun p => p.1 = y0) = [] := by simpa using h
    rw [hTdef, hnil] at hpos
    simp at hpos
  rw [if_neg h2]
  have h3 : ¬((((groupSumOf t).filter (fun p => p.1 = y0)).map Prod.snd).sum ≤ 0
      ∨ (((groupSumOf t).filter (fun p => p.1 = y0)).map Prod.snd).sum ≤ 0) := by
    rw [← hTdef]
    rw [or_self]
    linarith
  rw [if_neg h3, ← hTdef]
  norm_num

/-- C3 counterexample: for the one-row table year 2000 with value 10 and
start_year = end_year = 2000, cagr returns 0, not NaN: the source clamps
the exponent with n = max(1, end - start) and computes (10/10) ** 1 - 1. -/
theorem cagr_counterexample :
    cagr ⟨true, false, [⟨2000, 2000, some 10⟩]⟩ (some 2000) (some 2000) = .ok (some 0) ∧
      (Except.ok (some (0 : ℝ)) ≠ (Except.ok none : Except String (Option ℝ))) := by
  have hT : yearTotal ⟨true, false, [⟨2000, 2000, some 10⟩]⟩ 2000 = 10 := by
    simp [yearTotal, groupSumOf, groupSum, nsum, rowYear, List.dedup]
  have hK := cagrK_start_eq_end ⟨true, false, [⟨2000, 2000, some 10⟩]⟩ (Or.inl rfl) 2000
    (by rw [hT]; norm_num)
  rw [hT] at hK
  constructor
  · unfold cagr
    rw [hK]
    simp only [Except.map, Option.map]
    norm_num
  · simp

/-- C3 amended: cagr yields NaN whenever either requested endpoint yearly
total is non-positive (which subsumes fewer than 2 distinct years in a
range with distinct endpoints, since an absent endpoint totals 0), but for
end_year = start_year over a positive total it returns 0, not NaN, because
the source clamps the year span with max(1, end - start). -/
theorem cagr_spec (t : MTable) (hcol : t.hasYear = true ∨ t.hasDate = true) :
    (∀ s e : Int, yearTotal t s ≤ 0 ∨ yearTotal t e ≤ 0 →
      cagr t (some s) (some e) = .ok none) ∧
    (∀ y0 : Int, 0 < yearTotal t y0 →
      cagr t (some y0) (some y0) = .ok (some 0)) := by
  constructor
  · intro s e h
    unfold cagr
    rw [cagrK_endpoint_nonpos t hcol s e h]
    rfl
  · intro y0 h
    unfold cagr
    rw [cagrK_start_eq_end t hcol y0 h]
    simp only [Except.map, Option.map]
    have hT : ((yearTotal t y0 : ℚ) : ℝ) ≠ 0 := by
      exact_mod_cast ne_of_gt h
    norm_num [div_self hT]

/-- Witness for C3 at a concrete one-row table. -/
theorem cagr_spec_witness :
    cagr ⟨true, false, [⟨2005, 2005, some 7⟩]⟩ (some 2004) (some 2005) = .ok none ∧
      cagr ⟨true, false, [⟨2005, 2005, some 7⟩]⟩ (some 2005) (some 2005) = .ok (some 0) := by
  have hT4 : yearTotal ⟨true, false, [⟨2005, 2005, some 7⟩]⟩ 2004 = 0 := by
    simp [yearTotal, groupSumOf, groupSum, nsum, rowYear, List.dedup]
  have hT5 : yearTotal ⟨true, false, [⟨2005, 2005, some 7⟩]⟩ 2005 = 7 := by
    simp [yearTotal, groupSumOf, groupSum, nsum, rowYear, List.dedup]
  exact ⟨(cagr_spec ⟨true, false, [⟨2005, 2005, some 7⟩]⟩ (Or.inl rfl)).1 2004 2005
      (Or.inl (by rw [hT4])),
    (cagr_spec ⟨true, false, [⟨2005, 2005, some 7⟩]⟩ (Or.inl rfl)).2 2005
      (by rw [hT5]; norm_num)⟩

/-!  ## C1 : market share and the absent Others bucket  -/

/-- Evaluation of the market-share aggregation on the distribution
A=50, B=30, C=10, D=10 with top_n = 2. -/
theorem agg_cie_market_share_eval :
    agg_cie_market_share true
      [("A", some 50), ("B", some 30), ("C", some 10), ("D", some 10)] 2 =
      [("A", 50, some (1 / 2)), ("B", 30, some (3 / 10))] := by
  have hg : groupSum (κ := String) (· ≤ ·)
      [("A", some 50), ("B", some 30), ("C", some 10), ("D", some 10)] =
      [("A", 50), ("B", 30), ("C", 10), ("D", 10)] := by
    simp +decide [groupSum, nsum, List.insertionSort, List.orderedInsert]
  have hs : List.insertionSort (fun a b : String × ℚ => b.2 ≤ a.2)
      [("A", 50), ("B", 30), ("C", 10), ("D", 10)] =
      [("A", 50), ("B", 30), ("C", 10), ("D", 10)] := by
    simp only [List.insertionSort, List.orderedInsert]
    norm_num
  unfold agg_cie_market_share
  rw [if_neg (by decide)]
  simp only [hg, hs]
  norm_num

/-- C1 counterexample: with entities A=50, B=30, C=10, D=10 and top_n = 2
the market-share table contains no Others bucket and its shares sum to
0.8, not 1: the source computes each share against the full grand total
and then truncates with head(top_n), never collapsing the tail. -/
theorem agg_cie_market_share_counterexample :
    ("Others" ∉ (agg_cie_market_share true
        [("A", some 50), ("B", some 30), ("C", some 10), ("D", some 10)] 2).map Prod.fst) ∧
      ((agg_cie_market_share true
        [("A", some 50), ("B", some 30), ("C", some 10), ("D", some 10)] 2).filterMap
          (fun p => p.2.2)).sum ≠ 1 := by
  rw [agg_cie_market_share_eval]
  constructor
  · simp
  · simp only [List.filterMap_cons, List.filterMap_nil]
    norm_num

/-- C1 amended: the market-share operation keeps only the top-N rows of
the all-entity share table; on A=50, B=30, C=10, D=10 with top_n = 2 it
yields A with share 0.5 and B with share 0.3 (each relative to the full
total 100), and the returned shares sum to 0.8. -/
theorem agg_cie_market_share_top2 :
    agg_cie_market_share true
        [("A", some 50), ("B", some 30), ("C", some 10), ("D", some 10)] 2 =
      [("A", 50, some (1 / 2)), ("B", 30, some (3 / 10))] ∧
      ((agg_cie_market_share true
        [("A", some 50), ("B", some 30), ("C", some 10), ("D", some 10)] 2).filterMap
          (fun p => p.2.2)).sum = 4 / 5 := by
  rw [agg_cie_market_share_eval]
  refine ⟨rfl, ?_⟩
  simp only [List.filterMap_cons, List.filterMap_nil]
  norm_num

/-!  ## C6 : schema-drift tolerance  -/

/-- C6: for a table whose columns are the expected schema minus one
expected column plus one unrecognized extra, validate_schema returns (it
never raises, being a total function) a report with missing holding
exactly the absent column and extras exactly the unrecognized one. -/
theorem validate_schema_drift (expected : List String) (ae : Option (List String))
    (m x : String)
    (hm : m ∈ (expected.map lower).toFinset)
    (hx1 : x ∉ (expected.map lower).toFinset)
    (hx2 : x ∉ KNOWN_DERIVED ∪ ((ae.getD []).map lower).toFinset) :
    (validate_schema (((expected.map lower).toFinset.erase m) ∪ {x}) expected ae).missing
        = [m] ∧
      (validate_schema (((expected.map lower).toFinset.erase m) ∪ {x}) expected ae).extras
        = [x] := by
  have hmx : m ≠ x := fun h => hx1 (h ▸ hm)
  unfold validate_schema
  constructor
  · show ((expected.map lower).toFinset.filter
      (fun c => c ∉ ((expected.map lower).toFinset.erase m) ∪ {x})).sort (· ≤ ·) = [m]
    have hset : (expected.map lower).toFinset.filter
        (fun c => c ∉ ((expected.map lower).toFinset.erase m) ∪ {x}) = {m} := by
      ext c
      simp only [Finset.mem_filter, Finset.mem_union, Finset.mem_erase,
        Finset.mem_singleton, not_or, not_and]
      constructor
      · rintro ⟨hcE, h1, _⟩
        by_contra hne
        exact (h1 hne) hcE
      · rintro rfl
        exact ⟨hm, fun hne => absurd rfl hne, hmx⟩
    rw [hset, Finset.sort_singleton]
  · show ((((expected.map lower).toFinset.erase m) ∪ {x}).filter
      (fun c => c ∉ (expected.map lower).toFinset ∧
        c ∉ KNOWN_DERIVED ∪ ((ae.getD []).map lower).toFinset)).sort (· ≤ ·) = [x]
    have hset : (((expected.map lower).toFinset.erase m) ∪ {x}).filter
        (fun c => c ∉ (expected.map lower).toFinset ∧
          c ∉ KNOWN_DERIVED ∪ ((ae.getD []).map lower).toFinset) = {x} := by
      ext c
      simp only [Finset.mem_filter, Finset.mem_union, Finset.mem_erase,
        Finset.mem_singleton]
      constructor
      · rintro ⟨hc, hcE, _⟩
        rcases hc with ⟨_, hmem⟩ | h
        · exact absurd hmem hcE
        · exact h
      · rintro rfl
        exact ⟨Or.inr rfl, hx1, fun h => hx2 (Finset.mem_union.mpr h)⟩
    rw [hset, Finset.sort_singleton]

/-- Witness for C6: schema a, b with column a missing and extra column z. -/
theorem validate_schema_drift_witness :
    (validate_schema (((["a", "b"].map lower).toFinset.erase "a") ∪ {"z"})
        ["a", "b"] none).missing = ["a"] ∧
      (validate_schema (((["a", "b"].map lower).toFinset.erase "a") ∪ {"z"})
        ["a", "b"] none).extras = ["z"] :=
  validate_schema_drift ["a", "b"] none "a" "z" (by decide) (by decide)
    (by decide)

/-- Witness for C9 at a one-row table whose only year is 2020. -/
theorem recovery_baseline_absent_witness :
    recovery_vs_baseline_year ⟨true, false, [⟨2020, 2020, some 5⟩]⟩ 2019 = .ok none :=
  recovery_baseline_absent ⟨true, false, [⟨2020, 2020, some 5⟩]⟩ (Or.inl rfl) 2019
    (by decide)

/-!  ## C4 : HHI bounds  -/

/-- A list of non-negative rationals has non-negative sum. -/
theorem list_sum_nonneg {l : List ℚ} (h : ∀ x ∈ l, 0 ≤ x) : 0 ≤ l.sum := by
  induction l with
  | nil => simp
  | cons a t ih =>
    simp only [List.sum_cons]
    have ha := h a (by simp)
    have ht := ih (fun x hx => h x (by simp [hx]))
    linarith

/-- A list of non-negative rationals summing to zero is all zero. -/
theorem list_nonneg_sum_zero {l : List ℚ} (h : ∀ x ∈ l, 0 ≤ x) (hs : l.sum = 0) :
    ∀ x ∈ l, x = 0 := by
  induction l with
  | nil => simp
  | cons a t ih =>
    simp only [List.sum_cons] at hs
    have ha := h a (by simp)
    have ht := list_sum_nonneg (l := t) (fun x hx => h x (List.mem_cons_of_mem a hx))
    have ha0 : a = 0 := by linarith
    have hts : t.sum = 0 := by linarith
    intro x hx
    rcases List.mem_cons.mp hx with rfl | hx
    · exact ha0
    · exact ih (fun x hx => h x (List.mem_cons_of_mem a hx)) hts x hx

/-- Pointwise bounded maps have ordered sums. -/
theorem list_sum_le_sum {l : List ℚ} {f g : ℚ → ℚ} (h : ∀ x ∈ l, f x ≤ g x) :
    (l.map f).sum ≤ (l.map g).sum := by
  induction l with
  | nil => simp
  | cons a t ih =>
    simp only [List.map_cons, List.sum_cons]
    have ha := h a (by simp)
    have ht := ih (fun x hx => h x (by simp [hx]))
    linarith

/-- Pointwise bounded maps with equal sums agree pointwise. -/
theorem list_pointwise_eq_of_sum_eq {l : List ℚ} {f g : ℚ → ℚ}
    (hle : ∀ x ∈ l, f x ≤ g x) (hsum : (l.map f).sum = (l.map g).sum) :
    ∀ x ∈ l, f x = g x := by
  induction l with
  | nil => simp
  | cons a t ih =>
    simp only [List.map_cons, List.sum_cons] at hsum
    have ha := hle a (by simp)
    have ht := list_sum_le_sum (l := t) (fun x hx => hle x (List.mem_cons_of_mem a hx))
    have ha2 : f a = g a := by linarith
    have ht2 : (t.map f).sum = (t.map g).sum := by linarith
    intro x hx
    rcases List.mem_cons.mp hx with rfl | hx
    · exact ha2
    · exact ih (fun x hx => hle x (List.mem_cons_of_mem a hx)) ht2 x hx

/-- Division distributes over a list sum. -/
theorem list_sum_map_div (l : List ℚ) (c : ℚ) :
    (l.map (fun v => v / c)).sum = l.sum / c := by
  induction l with
  | nil => simp
  | cons a t ih =>
    simp only [List.map_cons, List.sum_cons, ih]
    ring

/-- The skipna sum of a series of non-negative cells is non-negative. -/
theorem nsum_nonneg {l : List (Option ℚ)} (h : ∀ v ∈ l, ∀ q, v = some q → 0 ≤ q) :
    0 ≤ nsum l := by
  apply list_sum_nonneg
  intro x hx
  rcases List.mem_filterMap.mp hx with ⟨v, hv, hvx⟩
  exact h v hv x hvx

/-- Every group sum over non-negative cells is non-negative. -/
theorem groupSum_snd_nonneg {κ : Type} [DecidableEq κ] (le : κ → κ → Prop)
    [DecidableRel le] {l : List (κ × Option ℚ)}
    (h : ∀ p ∈ l, ∀ q, p.2 = some q → 0 ≤ q) :
    ∀ p ∈ groupSum le l, 0 ≤ p.2 := by
  intro p hp
  unfold groupSum at hp
  rcases List.mem_map.mp hp with ⟨k, _, rfl⟩
  apply nsum_nonneg
  intro v hv q hvq
  rcases List.mem_map.mp hv with ⟨r, hr, rfl⟩
  exact h r (List.mem_of_mem_filter hr) q hvq

/-- The keys of a grouped table are distinct. -/
theorem groupSum_keys_nodup {κ : Type} [DecidableEq κ] (le : κ → κ → Prop)
    [DecidableRel le] (l : List (κ × Option ℚ)) :
    ((groupSum le l).map Prod.fst).Nodup := by
  have hmap : (groupSum le l).map Prod.fst =
      List.insertionSort le (l.map Prod.fst).dedup := by
    unfold groupSum
    rw [List.map_map]
    show List.map id (List.insertionSort le (l.map Prod.fst).dedup) = _
    rw [List.map_id]
  rw [hmap]
  exact ((List.perm_insertionSort le _).nodup_iff).mpr (List.nodup_dedup _)

/-- The share-squared sum of a non-negative list with positive total is in
(0, 1], attaining 1 exactly when the total itself occurs in the list. -/
theorem shares_sq_spec (vals : List ℚ) (hnn : ∀ v ∈ vals, 0 ≤ v)
    (hT : 0 < vals.sum) :
    0 < (vals.map (fun v => (v / vals.sum) ^ 2)).sum ∧
      (vals.map (fun v => (v / vals.sum) ^ 2)).sum ≤ 1 ∧
      ((vals.map (fun v => (v / vals.sum) ^ 2)).sum = 1 ↔ vals.sum ∈ vals) := by
  set T := vals.sum with hTdef
  have hTne : T ≠ 0 := ne_of_gt hT
  have hshare_sum : (vals.map (fun v => v / T)).sum = 1 := by
    rw [list_sum_map_div, ← hTdef, div_self hTne]
  have hshare_nonneg : ∀ v ∈ vals, 0 ≤ v / T :=
    fun v hv => div_nonneg (hnn v hv) (le_of_lt hT)
  have hshare_le_one : ∀ v ∈ vals, v / T ≤ 1 := by
    intro v hv
    rw [div_le_one hT]
    exact List.single_le_sum hnn v hv
  have hsq_le_share : ∀ v ∈ vals, (v / T) ^ 2 ≤ v / T := by
    intro v hv
    have h0 := hshare_nonneg v hv
    have h1 := hshare_le_one v hv
    nlinarith
  refine ⟨?_, ?_, ?_, ?_⟩
  · -- positivity
    have hex : ∃ v ∈ vals, 0 < v := by
      by_contra hno
      push_neg at hno
      have := list_sum_nonpos (fun x hx => hno x hx)
      linarith
    rcases hex with ⟨v, hv, hvpos⟩
    have hmem : (v / T) ^ 2 ∈ vals.map (fun v => (v / T) ^ 2) :=
      List.mem_map.mpr ⟨v, hv, rfl⟩
    have hle := List.single_le_sum
      (l := vals.map (fun v => (v / T) ^ 2))
      (fun x hx => by
        rcases List.mem_map.mp hx with ⟨w, _, rfl⟩
        positivity) _ hmem
    have : 0 < (v / T) ^ 2 := by positivity
    linarith
  · -- at most one
    calc (vals.map (fun v => (v / T) ^ 2)).sum
        ≤ (vals.map (fun v => v / T)).sum := list_sum_le_sum hsq_le_share
      _ = 1 := hshare_sum
  · -- equality forces the total to occur
    intro hone
    have heq : (vals.map (fun v => (v / T) ^ 2)).sum = (vals.map (fun v => v / T)).sum := by
      rw [hone, hshare_sum]
    have hpt := list_pointwise_eq_of_sum_eq hsq_le_share heq
    have hex : ∃ v ∈ vals, v / T = 1 := by
      by_contra hno
      push_neg at hno
      have hz : ∀ v ∈ vals, v / T = 0 := by
        intro v hv
        have h2 := hpt v hv
        have h01 : v / T = 0 ∨ v / T = 1 := by
          have : (v / T) * ((v / T) - 1) = 0 := by nlinarith
          rcases mul_eq_zero.mp this with h | h
          · exact Or.inl h
          · exact Or.inr (by linarith)
        rcases h01 with h | h
        · exact h
        · exact absurd h (hno v hv)
      have : (vals.map (fun v => v / T)).sum = 0 :=
        List.sum_eq_zero (fun x hx => by
          rcases List.mem_map.mp hx with ⟨w, hw, rfl⟩
          exact hz w hw)
      rw [hshare_sum] at this
      norm_num at this
    rcases hex with ⟨v, hv, hv1⟩
    have : v = T := by
      field_simp at hv1
      exact hv1
    exact this ▸ hv
  · -- the total occurring forces equality
    intro hmem
    have hperm : List.Perm vals (T :: vals.erase T) := List.perm_cons_erase hmem
    have hsumerase : (vals.erase T).sum = 0 := by
      have := hperm.sum_eq
      simp only [List.sum_cons] at this
      rw [← hTdef] at this
      linarith
    have herasub : ∀ x ∈ vals.erase T, x = 0 := by
      apply list_nonneg_sum_zero
      · intro x hx
        exact hnn x (List.mem_of_mem_erase hx)
      · exact hsumerase
    have hmapperm := hperm.map (fun v => (v / T) ^ 2)
    rw [hmapperm.sum_eq]
    simp only [List.map_cons, List.sum_cons]
    have hz : ((vals.erase T).map (fun v => (v / T) ^ 2)).sum = 0 :=
      List.sum_eq_zero (fun x hx => by
        rcases List.mem_map.mp hx with ⟨w, hw, rfl⟩
        rw [herasub w hw]
        norm_num)
    rw [hz, div_self hTne]
    norm_num

/-- The grand total occurs among the group sums exactly when one entity
holds the whole positive distribution. -/
theorem singleHolder_iff (rows : List (String × Option ℚ))
    (hnn : ∀ p ∈ rows, ∀ q, p.2 = some q → 0 ≤ q) :
    grandTotal rows ∈ (groupSum (κ := String) (· ≤ ·) rows).map Prod.snd ↔
      singleHolder rows := by
  have hGnodup : (groupSum (κ := String) (· ≤ ·) rows).Nodup :=
    (groupSum_keys_nodup (· ≤ ·) rows).of_map
  constructor
  · intro hmem
    rcases List.mem_map.mp hmem with ⟨p, hp, hpT⟩
    refine ⟨p, hp, hpT, ?_⟩
    intro q hq hqne
    have hqnep : q ≠ p := fun h => hqne (by rw [h])
    have hperm := List.perm_cons_erase hp
    have hqerase := (List.mem_cons.mp ((hperm.mem_iff).mp hq)).resolve_left hqnep
    have hTsum : ((groupSum (κ := String) (· ≤ ·) rows).map Prod.snd).sum =
        grandTotal rows := rfl
    have hps := (hperm.map Prod.snd).sum_eq
    simp only [List.map_cons, List.sum_cons] at hps
    rw [hTsum, hpT] at hps
    refine list_nonneg_sum_zero ?_ ?_ q.2 (List.mem_map.mpr ⟨q, hqerase, rfl⟩)
    · intro x hx
      rcases List.mem_map.mp hx with ⟨r, hr, rfl⟩
      exact groupSum_snd_nonneg _ hnn r ((hperm.mem_iff).mpr (List.mem_cons_of_mem p hr))
    · linarith
  · rintro ⟨p, hp, hpT, _⟩
    exact List.mem_map.mpr ⟨p, hp, hpT⟩

/-- C4: on a non-empty non-negative entity distribution the HHI is NaN
when the grand total is not positive, and otherwise lies in (0, 1], equal
to 1 exactly when a single entity holds 100 percent of the total. -/
theorem hhi_concentration_spec (rows : List (String × Option ℚ)) (hne : rows ≠ [])
    (hnn : ∀ p ∈ rows, ∀ q, p.2 = some q → 0 ≤ q) :
    (grandTotal rows ≤ 0 → hhi_concentration true rows = none) ∧
      (0 < grandTotal rows →
        ∃ h, hhi_concentration true rows = some h ∧ 0 < h ∧ h ≤ 1 ∧
          (h = 1 ↔ singleHolder rows)) := by
  have hie : rows.isEmpty = false := by
    cases rows with
    | nil => exact absurd rfl hne
    | cons a t => rfl
  have hcond : ¬(rows.isEmpty = true ∨ (true : Bool) = false) := by simp [hie]
  constructor
  · intro hle
    have hle2 : ((groupSum (κ := String) (· ≤ ·) rows).map Prod.snd).sum ≤ 0 := hle
    unfold hhi_concentration
    rw [if_neg hcond, if_pos hle2]
  · intro hpos
    have hpos2 : ¬((groupSum (κ := String) (· ≤ ·) rows).map Prod.snd).sum ≤ 0 :=
      not_le.mpr hpos
    unfold hhi_concentration
    rw [if_neg hcond, if_neg hpos2]
    have hvnn : ∀ v ∈ (groupSum (κ := String) (· ≤ ·) rows).map Prod.snd, 0 ≤ v := by
      intro v hv
      rcases List.mem_map.mp hv with ⟨p, hp, rfl⟩
      exact groupSum_snd_nonneg _ hnn p hp
    have hspec := shares_sq_spec ((groupSum (κ := String) (· ≤ ·) rows).map Prod.snd)
      hvnn hpos
    have hmm : ((groupSum (κ := String) (· ≤ ·) rows).map
        (fun p => (p.2 / ((groupSum (κ := String) (· ≤ ·) rows).map Prod.snd).sum) ^ 2)) =
        (((groupSum (κ := String) (· ≤ ·) rows).map Prod.snd).map
          (fun v => (v / ((groupSum (κ := String) (· ≤ ·) rows).map Prod.snd).sum) ^ 2)) := by
      rw [List.map_map]
      rfl
    rw [hmm]
    exact ⟨_, rfl, hspec.1, hspec.2.1,
      (hspec.2.2).trans (singleHolder_iff rows hnn)⟩

/-- Witness for C4 at the one-entity distribution A = 1. -/
theorem hhi_concentration_spec_witness :
    (grandTotal [("A", some 1)] ≤ 0 → hhi_concentration true [("A", some 1)] = none) ∧
      (0 < grandTotal [("A", some 1)] →
        ∃ h, hhi_concentration true [("A", some 1)] = some h ∧ 0 < h ∧ h ≤ 1 ∧
          (h = 1 ↔ singleHolder [("A", some 1)])) :=
  hhi_concentration_spec [("A", some 1)] (by decide)
    (by
      intro p hp q hq
      rcases List.mem_cons.mp hp with rfl | h
      · simp only [Option.some.injEq] at hq
        rw [← hq]
        norm_num
      · simp at h)
